import Mathlib

/-!
Verification of the MDePUB package assembly and validation engine
(`src/converter/epub_builder.py`) against its natural-language specification.

Modelling conventions:
* Python strings are Lean `String`s; file contents are strings (the source
  always reads and writes UTF-8 text).  Python string primitives
  (`str.lower`, `str.endswith`, single-character `str.replace`, `str.join`)
  are modelled at the code-point level on `String.data`.
* The filesystem is a finite association list from absolute POSIX paths to
  contents.  `os.path.join a b` on POSIX is `a ++ "/" ++ b`; the source's
  `.replace('\\', '/')` normalisation is the identity in the POSIX model.
* ZIP archives are lists of entries `(filename, content, compress_type)`;
  `ZipFile.testzip` is modelled by a `corrupt` field holding the name of the
  first corrupted member, `none` for a well-formed archive.  Archives
  freshly written by the builder are well-formed.  `getinfo` resolves a
  name through the name-to-info dictionary, in which a later duplicate
  entry overwrites an earlier one.
* `datetime.utcnow()` is an input: descriptor generation takes the rendered
  timestamp string as an explicit parameter.
* Exceptions are modelled by explicit result values (`CreateResult`,
  `Option`); the blanket `try/except` of `validate_epub` corresponds to the
  model returning a `(Bool, String)` pair on every input.
-/

/-- Python `str.lower()`, per code point. -/
def strLower (s : String) : String :=
  ⟨s.data.map Char.toLower⟩

/-- Python `str.endswith(suffix)`. -/
def strEndsWith (s suffix : String) : Bool :=
  suffix.data.isSuffixOf s.data

/-- Python `str.replace(old, new)` where `old` is a single character:
replaces every occurrence of that character. -/
def pyReplaceChar (s : String) (old new : Char) : String :=
  ⟨s.data.map (fun c => if c = old then new else c)⟩

/-- Python `sep.join(parts)`. -/
def pyJoin (sep : String) : List String → String
  | [] => ""
  | x :: xs => xs.foldl (fun acc y => acc ++ sep ++ y) x

/-- POSIX `os.path.join` for a relative second component. -/
def sjoin (a b : String) : String :=
  a ++ "/" ++ b

/-- Characters of the last `/`-separated component of a path (the file name
that `os.walk` yields for that file). -/
def basenameChars (l : List Char) : List Char :=
  l.foldl (fun acc c => if c = '/' then [] else acc ++ [c]) []

/-- Last `/`-separated component of a path. -/
def basename (p : String) : String :=
  ⟨basenameChars p.data⟩

/-- Decimal digit characters of `n`, most significant first, with
explicit fuel (first argument) so that the definition is structural; a
faithful model of Python's decimal rendering of `n ≥ 1` in an f-string. -/
def decCharsAux : Nat → Nat → List Char
  | _, 0 => []
  | 0, _ + 1 => []
  | f + 1, n + 1 =>
      decCharsAux f ((n + 1) / 10) ++ [Nat.digitChar ((n + 1) % 10)]

/-- Decimal rendering of `n` (empty for `n = 0`; the source only renders
positive numbers). -/
def natDecimal (n : Nat) : String :=
  ⟨decCharsAux n n⟩

/-- A registered content entry: the dictionary
`{"id": ..., "href": ..., "media_type": ...}` appended by `add_item`. -/
structure ContentItem where
  id : String
  href : String
  media_type : String
deriving DecidableEq, Repr

/-- The builder state: title, author, uuid and the ordered item registry
(`EPUBBuilder.__init__`; the uuid is generated once per builder). -/
structure EPUBBuilder where
  title : String
  author : String
  uuid : String
  items : List ContentItem
deriving DecidableEq, Repr

/-- `EPUBBuilder.add_item`: assigns the next sequential id
`item_{len(items)+1}` and appends the new entry to the registry. -/
def EPUBBuilder.add_item (b : EPUBBuilder) (href : String)
    (media_type : String := "application/xhtml+xml") : EPUBBuilder :=
  { b with items := b.items ++
      [⟨"item_" ++ natDecimal (b.items.length + 1), href, media_type⟩] }

/-- A sequence of `add_item` calls (href, media type), in order. -/
def EPUBBuilder.add_items (b : EPUBBuilder) (hs : List (String × String)) : EPUBBuilder :=
  hs.foldl (fun acc h => acc.add_item h.1 h.2) b

/-- The Windows-illegal characters replaced by `_sanitize_filename`, in the
order the source iterates over `'<>:"/\\|?*'`. -/
def illegal_chars : List Char :=
  ['<', '>', ':', '"', '/', '\\', '|', '?', '*']

/-- `EPUBBuilder._sanitize_filename`: replace each illegal character with an
underscore, then append `.epub` unless the lower-cased name already ends
with it. -/
def _sanitize_filename (filename : String) : String :=
  let f := illegal_chars.foldl (fun acc c => pyReplaceChar acc c '_') filename
  if strEndsWith (strLower f) ".epub" then f else f ++ ".epub"

/-- `EPUBBuilder._generate_manifest_items`: one `<item .../>` line per
registered item, joined by newline plus indentation. -/
def _generate_manifest_items (items : List ContentItem) : String :=
  pyJoin "\n        " (items.map (fun item =>
    "<item id=\"" ++ item.id ++ "\" href=\"" ++ item.href ++
      "\" media-type=\"" ++ item.media_type ++ "\"/>"))

/-- `EPUBBuilder._generate_spine_items`: one `<itemref .../>` line per
registered item, joined by newline plus indentation. -/
def _generate_spine_items (items : List ContentItem) : String :=
  pyJoin "\n        " (items.map (fun item =>
    "<itemref idref=\"" ++ item.id ++ "\"/>"))

/-- The `content.opf` document rendered by `generate_content_opf`, as a
function of the interpolated values; `now` is the rendered
`_get_current_time()` timestamp. -/
def content_opf_text (uuid title author : String) (items : List ContentItem)
    (now : String) : String :=
  "<?xml version=\"1.0\" encoding=\"UTF-8\"?>\n<package version=\"3.0\" xmlns=\"http://www.idpf.org/2007/opf\" unique-identifier=\"BookId\">\n    <metadata xmlns:dc=\"http://purl.org/dc/elements/1.1/\" xmlns:opf=\"http://www.idpf.org/2007/opf\">\n        <dc:identifier id=\"BookId\">"
    ++ uuid ++ "</dc:identifier>\n        <dc:title>"
    ++ title ++ "</dc:title>\n        <dc:creator>"
    ++ author ++ "</dc:creator>\n        <dc:language>zh-CN</dc:language>\n        <meta property=\"dcterms:modified\">"
    ++ now ++ "</meta>\n    </metadata>\n    \n    <manifest>\n        "
    ++ _generate_manifest_items items ++ "\n    </manifest>\n    \n    <spine>\n        "
    ++ _generate_spine_items items ++ "\n    </spine>\n</package>"

/-- Compression constant `zipfile.ZIP_STORED`. -/
def ZIP_STORED : Nat := 0

/-- Compression constant `zipfile.ZIP_DEFLATED`. -/
def ZIP_DEFLATED : Nat := 8

/-- One member of a ZIP archive: name, (decoded) content, compression. -/
structure ZipEntry where
  filename : String
  content : String
  compress_type : Nat
deriving DecidableEq, Repr

/-- A ZIP archive: the entry list in write order, plus the result the
archive would give for `testzip()` (name of the first corrupted member). -/
structure ZipArchive where
  filelist : List ZipEntry
  corrupt : Option String
deriving DecidableEq, Repr

/-- `ZipFile.getinfo(name)`: the name-to-info dictionary is built in entry
order with later duplicates overwriting earlier ones, so the last entry
with the given name wins; `none` models the `KeyError`. -/
def ZipArchive.getinfo (z : ZipArchive) (name : String) : Option ZipEntry :=
  (z.filelist.filter (fun e => e.filename == name)).getLast?

/-- `ZipFile.read(name).decode('utf-8')`; `none` models the `KeyError`. -/
def ZipArchive.read (z : ZipArchive) (name : String) : Option String :=
  (z.getinfo name).map (fun e => e.content)

/-- The filesystem and the archives on it: finitely many regular text files
and finitely many ZIP archive files, keyed by absolute path. -/
structure Disk where
  files : List (String × String)
  archives : List (String × ZipArchive)
deriving DecidableEq, Repr

/-- Content of the text file at `p`, if any. -/
def lookupFile (fs : List (String × String)) (p : String) : Option String :=
  (fs.find? (fun e => e.1 == p)).map (fun e => e.2)

/-- Archive stored at `p`, if any. -/
def lookupArchive (ars : List (String × ZipArchive)) (p : String) : Option ZipArchive :=
  (ars.find? (fun e => e.1 == p)).map (fun e => e.2)

/-- `os.path.exists`. -/
def fileExists (d : Disk) (p : String) : Bool :=
  (lookupFile d.files p).isSome || (lookupArchive d.archives p).isSome

/-- `open(p, 'w')` followed by a write: replaces whatever object was at `p`
with a text file holding `c`. -/
def writeFile (d : Disk) (p c : String) : Disk :=
  ⟨d.files.filter (fun e => !(e.1 == p)) ++ [(p, c)],
   d.archives.filter (fun e => !(e.1 == p))⟩

/-- `zipfile.ZipFile(p, 'w')` run to completion: replaces whatever object
was at `p` with the archive `z`. -/
def writeArchive (d : Disk) (p : String) (z : ZipArchive) : Disk :=
  ⟨d.files.filter (fun e => !(e.1 == p)),
   d.archives.filter (fun e => !(e.1 == p)) ++ [(p, z)]⟩

/-- `os.remove(p)`. -/
def removePath (d : Disk) (p : String) : Disk :=
  ⟨d.files.filter (fun e => !(e.1 == p)),
   d.archives.filter (fun e => !(e.1 == p))⟩

/-- A well-formed disk: paths are unique keys. -/
def Disk.WF (d : Disk) : Prop :=
  ((d.files.map Prod.fst) ++ (d.archives.map Prod.fst)).Nodup

/-- `EPUBBuilder._create_mimetype`: writes the marker file with the exact
bytes `application/epub+zip` (`newline=''`, UTF-8, no byte-order mark). -/
def _create_mimetype (d : Disk) (output_dir : String) : Disk :=
  writeFile d (sjoin output_dir "mimetype") "application/epub+zip"

/-- The static `container.xml` content written by `_create_container_xml`. -/
def container_xml : String :=
  "<?xml version=\"1.0\" encoding=\"UTF-8\"?>\n<container version=\"1.0\" xmlns=\"urn:oasis:names:tc:opendocument:xmlns:container\">\n    <rootfiles>\n        <rootfile full-path=\"OEBPS/content.opf\" media-type=\"application/oebps-package+xml\"/>\n    </rootfiles>\n</container>"

/-- `EPUBBuilder._create_container_xml`. -/
def _create_container_xml (d : Disk) (meta_inf_dir : String) : Disk :=
  writeFile d (sjoin meta_inf_dir "container.xml") container_xml

/-- `EPUBBuilder.create_epub_structure`: creates the `META-INF` and `OEBPS`
directories (implicit in the path model) and writes the two fixed files. -/
def create_epub_structure (d : Disk) (output_dir : String) : Disk :=
  _create_container_xml (_create_mimetype d output_dir) (sjoin output_dir "META-INF")

/-- `EPUBBuilder.generate_content_opf`: renders the descriptor from the
builder state and writes it to `output_dir/OEBPS/content.opf`, returning
the path. -/
def EPUBBuilder.generate_content_opf (b : EPUBBuilder) (d : Disk)
    (output_dir now : String) : String × Disk :=
  let output_path := sjoin (sjoin output_dir "OEBPS") "content.opf"
  (output_path, writeFile d output_path (content_opf_text b.uuid b.title b.author b.items now))

/-- The fixed-path entries `validate_epub` requires, in check order. -/
def required_files : List String :=
  ["mimetype", "META-INF/container.xml", "OEBPS/content.opf"]

/-- `EPUBBuilder.validate_epub` applied to an already-opened archive: the
check cascade inside the `with` block, in source order.  The two
`"验证过程出错"` branches model the blanket `except Exception` catching the
`KeyError`/`IndexError` that steps 3 and 4 would raise were their
preconditions not already established by step 2. -/
def validate_archive (items : List ContentItem) (z : ZipArchive) : Bool × String :=
  match z.corrupt with
  | some bad => (false, "ZIP文件损坏，首个错误文件: " ++ bad)
  | none =>
    match required_files.find? (fun f => (z.getinfo f).isNone) with
    | some f => (false, "缺少必需文件: " ++ f)
    | none =>
      match z.read "mimetype" with
      | none => (false, "验证过程出错: KeyError")
      | some c =>
        if !(c == "application/epub+zip") then (false, "mimetype文件内容不正确")
        else
          match z.filelist.head? with
          | none => (false, "验证过程出错: IndexError")
          | some e0 =>
            if !(e0.filename == "mimetype") || !(e0.compress_type == ZIP_STORED) then
              (false, "mimetype必须是第一个且未压缩的文件")
            else
              match items.find? (fun item => (z.getinfo (sjoin "OEBPS" item.href)).isNone) with
              | some item => (false, "content.opf中列出的文件不存在: " ++ sjoin "OEBPS" item.href)
              | none =>
                let _checksums := (z.filelist.filter (fun e => !(e.filename == "mimetype"))).map
                  (fun e => (e.filename, e.content))
                (true, "验证通过")

/-- Result of `zipfile.ZipFile(p, 'r')`: the archive, or the exception it
raises (`BadZipFile` for a non-archive file, `FileNotFoundError` for a
missing path). -/
inductive OpenResult where
  | opened (z : ZipArchive)
  | badZipFile
  | fileNotFound
deriving DecidableEq, Repr

/-- Open the object at `p` as a ZIP archive. -/
def openZip (d : Disk) (p : String) : OpenResult :=
  match lookupArchive d.archives p with
  | some z => .opened z
  | none => if (lookupFile d.files p).isSome then .badZipFile else .fileNotFound

/-- `EPUBBuilder.validate_epub`: opens the archive at `epub_path` and runs
the check cascade; `except zipfile.BadZipFile` and `except Exception`
produce the two error results. -/
def validate_epub (items : List ContentItem) (d : Disk) (epub_path : String) : Bool × String :=
  match openZip d epub_path with
  | .opened z => validate_archive items z
  | .badZipFile => (false, "无效的ZIP文件")
  | .fileNotFound =>
      (false, "验证过程出错: [Errno 2] No such file or directory: '" ++ epub_path ++ "'")

/-- The archive name actually used: the default `"{title}.epub"` when none
is supplied, then sanitized. -/
def epubName (b : EPUBBuilder) (epub_name? : Option String) : String :=
  _sanitize_filename (epub_name?.getD (b.title ++ ".epub"))

/-- Decision of the `os.walk` loop for the file at `pc.1`: keep every file
under `temp_dir` whose basename is neither `mimetype` (already written
first) nor the output name (self-inclusion guard). -/
def walkKeep (temp_dir epub_name : String) (pc : String × String) : Bool :=
  (temp_dir ++ "/").data.isPrefixOf pc.1.data
    && !(basename pc.1 == "mimetype") && !(basename pc.1 == epub_name)

/-- The archive entry written for a kept file: name is the path relative to
`temp_dir`, content is the file's content, default compression. -/
def walkEntry (temp_dir : String) (pc : String × String) : ZipEntry :=
  ⟨⟨pc.1.data.drop (temp_dir.data.length + 1)⟩, pc.2, ZIP_DEFLATED⟩

/-- All entries written by the `os.walk` loop. -/
def walkFiles (files : List (String × String)) (temp_dir epub_name : String) : List ZipEntry :=
  (files.filter (walkKeep temp_dir epub_name)).map (walkEntry temp_dir)

/-- The archive `create_epub` serialises: the marker entry first, stored
uncompressed with the scaffold marker file's content, then the walked
files; freshly written, hence not corrupted. -/
def builtArchive (mime_content : String) (files : List (String × String))
    (temp_dir epub_name : String) : ZipArchive :=
  ⟨⟨"mimetype", mime_content, ZIP_STORED⟩ :: walkFiles files temp_dir epub_name, none⟩

/-- Outcome of `create_epub`: the returned path, or the message of the
`ValueError`/`FileNotFoundError` it raises. -/
inductive CreateResult where
  | ok (path : String)
  | err (msg : String)
deriving DecidableEq, Repr

/-- `EPUBBuilder.create_epub`: pre-check every registered href under the
content root, compute the sanitized output name, serialise the scaffold
into a ZIP archive at the output path, then validate it, deleting the
archive and raising when validation fails.  The missing-marker branch
models `epub.write` raising `FileNotFoundError` after `ZipFile(..., 'w')`
has already created the output file (closed empty on unwinding). -/
def create_epub (b : EPUBBuilder) (d : Disk) (temp_dir output_dir : String)
    (epub_name? : Option String) : CreateResult × Disk :=
  match b.items.find? (fun item => !(fileExists d (sjoin (sjoin temp_dir "OEBPS") item.href))) with
  | some item => (.err ("找不到必需的文件: " ++ item.href), d)
  | none =>
    let epub_name := epubName b epub_name?
    let epub_path := sjoin output_dir epub_name
    match lookupFile d.files (sjoin temp_dir "mimetype") with
    | none =>
        (.err ("[Errno 2] No such file or directory: '" ++ sjoin temp_dir "mimetype" ++ "'"),
         writeArchive d epub_path ⟨[], none⟩)
    | some mime_content =>
        let z := builtArchive mime_content d.files temp_dir epub_name
        let d1 := writeArchive d epub_path z
        let v := validate_epub b.items d1 epub_path
        if v.1 then (.ok epub_path, d1)
        else (.err ("EPUB文件验证失败: " ++ v.2), removePath d1 epub_path)

/-- The sanitization described by the spec, stated independently of the
source's fold: replace every occurrence of each illegal character by an
underscore, then append `.epub` unless the name already ends with it under
a case-insensitive check. -/
def sanitize_by_spec (filename : String) : String :=
  let g : String := ⟨filename.data.map (fun c => if c ∈ illegal_chars then '_' else c)⟩
  if strEndsWith (strLower g) ".epub" then g else g ++ ".epub"

/-- Left inverse of decimal rendering: read the digits back. -/
def parseDec (l : List Char) : Nat :=
  l.foldl (fun acc c => acc * 10 + (c.toNat - 48)) 0

/-- Concrete one-chapter builder used by witnesses. -/
def demo_builder : EPUBBuilder :=
  ⟨"T", "A", "u", [⟨"item_1", "ch1.xhtml", "application/xhtml+xml"⟩]⟩

/-- Concrete scaffold disk used by witnesses: marker file, container
pointer, descriptor and one chapter under the content root of `tmp`. -/
def demo_disk : Disk :=
  ⟨[("tmp/mimetype", "application/epub+zip"), ("tmp/META-INF/container.xml", "c"),
    ("tmp/OEBPS/content.opf", "o"), ("tmp/OEBPS/ch1.xhtml", "h")], []⟩

/-- Concrete scaffold missing the container pointer: the archive gets
written, validation rejects it at the required-entry check. -/
def demo_disk_nocontainer : Disk :=
  ⟨[("tmp/mimetype", "application/epub+zip"),
    ("tmp/OEBPS/content.opf", "o"), ("tmp/OEBPS/ch1.xhtml", "h")], []⟩

/-- The archive built (then deleted) in the witness scenario for C3. -/
def demo_zip_fail : ZipArchive :=
  builtArchive "application/epub+zip" demo_disk_nocontainer.files "tmp"
    (epubName demo_builder none)

/-- A concrete archive passing every mandatory check. -/
def demo_zip_ok : ZipArchive :=
  ⟨[⟨"mimetype", "application/epub+zip", 0⟩, ⟨"META-INF/container.xml", "c", 8⟩,
    ⟨"OEBPS/content.opf", "o", 8⟩], none⟩

/-! ### Generic helper lemmas -/

theorem find?_append_of_none {α} (p : α → Bool) (l1 l2 : List α) (h : l1.find? p = none) :
    (l1 ++ l2).find? p = l2.find? p := by
  induction l1 with
  | nil => simp
  | cons a t ih =>
    simp only [List.find?] at h ⊢
    cases hp : p a with
    | true => simp [hp] at h
    | false =>
      simp only [hp] at h ⊢
      exact ih h

theorem find?_filter_key_none {β} (l : List (String × β)) (p : String) :
    (l.filter (fun e => !(e.1 == p))).find? (fun e => e.1 == p) = none := by
  rw [List.find?_eq_none]
  intro x hx
  rw [List.mem_filter] at hx
  simpa using hx.2

theorem filter_key_eq_self {β} (l : List (String × β)) (p : String)
    (h : l.find? (fun e => e.1 == p) = none) :
    l.filter (fun e => !(e.1 == p)) = l := by
  apply List.filter_eq_self.mpr
  intro a ha
  rw [List.find?_eq_none] at h
  simpa using h a ha

theorem filter_length_le_one {α β} [BEq β] [LawfulBEq β] (l : List α) (f : α → β) (s : β)
    (h : (l.map f).Nodup) : (l.filter (fun e => f e == s)).length ≤ 1 := by
  induction l with
  | nil => simp
  | cons a t ih =>
    simp only [List.map_cons, List.nodup_cons] at h
    cases hfa : (f a == s) with
    | false => simpa [hfa] using ih h.2
    | true =>
      have hfa' : f a = s := by simpa using hfa
      have hnil : t.filter (fun e => f e == s) = [] := by
        apply List.filter_eq_nil_iff.mpr
        intro e he hc
        have hfe : f e = s := by simpa using hc
        exact h.1 (List.mem_map.mpr ⟨e, he, by rw [hfe, hfa']⟩)
      simp [hfa, hnil]

/-! ### Filesystem and archive write/lookup lemmas -/

theorem lookupArchive_writeArchive (d : Disk) (p : String) (z : ZipArchive) :
    lookupArchive (writeArchive d p z).archives p = some z := by
  unfold lookupArchive writeArchive
  rw [find?_append_of_none _ _ _ (find?_filter_key_none d.archives p)]
  simp [List.find?]

theorem openZip_writeArchive (d : Disk) (p : String) (z : ZipArchive) :
    openZip (writeArchive d p z) p = .opened z := by
  unfold openZip
  rw [lookupArchive_writeArchive]

theorem validate_epub_writeArchive (items : List ContentItem) (d : Disk) (p : String)
    (z : ZipArchive) :
    validate_epub items (writeArchive d p z) p = validate_archive items z := by
  unfold validate_epub
  rw [openZip_writeArchive]

theorem writeArchive_files_of_no_file (d : Disk) (p : String) (z : ZipArchive)
    (h : d.files.find? (fun e => e.1 == p) = none) :
    (writeArchive d p z).files = d.files := by
  unfold writeArchive
  exact filter_key_eq_self d.files p h

theorem lookupFile_eq_none_iff (fs : List (String × String)) (p : String) :
    lookupFile fs p = none ↔ fs.find? (fun e => e.1 == p) = none := by
  unfold lookupFile
  cases fs.find? (fun e => e.1 == p) <;> simp

/-! ### Decimal rendering: fuel stability and injectivity -/

theorem decCharsAux_fuel : ∀ n f₁ f₂, n ≤ f₁ → n ≤ f₂ → decCharsAux f₁ n = decCharsAux f₂ n := by
  intro n
  induction n using Nat.strong_induction_on with
  | _ n ih =>
    intro f₁ f₂ h₁ h₂
    cases n with
    | zero => cases f₁ <;> cases f₂ <;> rfl
    | succ m =>
      cases f₁ with
      | zero => omega
      | succ g₁ =>
        cases f₂ with
        | zero => omega
        | succ g₂ =>
          simp only [decCharsAux]
          congr 1
          have hd : (m + 1) / 10 < m + 1 := Nat.div_lt_self (by omega) (by norm_num)
          exact ih ((m + 1) / 10) hd g₁ g₂ (by omega) (by omega)


theorem digitChar_toNat (r : Nat) (h : r < 10) : (Nat.digitChar r).toNat - 48 = r := by
  interval_cases r <;> decide

theorem parseDec_decCharsAux : ∀ n, parseDec (decCharsAux n n) = n := by
  intro n
  induction n using Nat.strong_induction_on with
  | _ n ih =>
    cases n with
    | zero => rfl
    | succ m =>
      have hd : (m + 1) / 10 < m + 1 := Nat.div_lt_self (by omega) (by norm_num)
      have hstep : decCharsAux (m + 1) (m + 1)
          = decCharsAux ((m + 1) / 10) ((m + 1) / 10) ++ [Nat.digitChar ((m + 1) % 10)] := by
        simp only [decCharsAux]
        congr 1
        exact decCharsAux_fuel ((m + 1) / 10) m ((m + 1) / 10) (by omega) (le_refl _)
      rw [hstep]
      unfold parseDec
      rw [List.foldl_append]
      have hmod : (m + 1) % 10 < 10 := Nat.mod_lt _ (by norm_num)
      simp only [List.foldl]
      rw [digitChar_toNat _ hmod]
      have := ih ((m + 1) / 10) hd
      unfold parseDec at this
      rw [this]
      omega

theorem natDecimal_injective : Function.Injective natDecimal := by
  intro m n h
  have hdata : decCharsAux m m = decCharsAux n n := congrArg String.data h
  have := congrArg parseDec hdata
  rwa [parseDec_decCharsAux, parseDec_decCharsAux] at this

theorem item_id_injective (m n : Nat) (h : "item_" ++ natDecimal m = "item_" ++ natDecimal n) :
    m = n := by
  apply natDecimal_injective
  have hdata := congrArg String.data h
  rw [String.data_append, String.data_append] at hdata
  have h2 := List.append_cancel_left hdata
  cases hm : natDecimal m with
  | mk lm =>
    cases hn : natDecimal n with
    | mk ln =>
      rw [hm, hn] at h2
      simp only at h2
      rw [h2]

/-! ### Claim C6: filename sanitization -/


theorem foldl_pyReplaceChar (cs : List Char) (f : String) :
    cs.foldl (fun acc c => pyReplaceChar acc c '_') f
      = ⟨f.data.map (fun x => if x ∈ cs then '_' else x)⟩ := by
  induction cs generalizing f with
  | nil =>
    simp only [List.foldl_nil, List.not_mem_nil, if_false]
    cases f with
    | mk l => simp
  | cons c cs ih =>
    rw [List.foldl_cons, ih]
    simp only [pyReplaceChar, List.map_map]
    have hfun : ((fun x => if x ∈ cs then '_' else x) ∘ fun x => if x = c then '_' else x)
        = fun x => if x ∈ c :: cs then '_' else x := by
      funext x
      by_cases hx : x = c
      · simp [hx]
      · simp [hx, Function.comp]
    rw [hfun]

/-- C6.  `_sanitize_filename` replaces each occurrence of the characters
`< > : " / \ | ? *` by an underscore and appends `.epub` when the name does
not already end with it case-insensitively; in particular `My:Book*Title`
maps to `My_Book_Title.epub` and a name already ending in `.epub` (in any
case) is not re-suffixed. -/
theorem sanitize_filename_spec (filename : String) :
    _sanitize_filename filename = sanitize_by_spec filename ∧
    _sanitize_filename "My:Book*Title" = "My_Book_Title.epub" ∧
    _sanitize_filename "Already.epub" = "Already.epub" ∧
    _sanitize_filename "UPPER.EPUB" = "UPPER.EPUB" := by
  refine ⟨?_, by decide, by decide, by decide⟩
  unfold _sanitize_filename sanitize_by_spec
  rw [foldl_pyReplaceChar]

/-! ### Claim C9: sequential registry construction -/

theorem add_items_items (hs : List (String × String)) (b : EPUBBuilder) :
    (b.add_items hs).items
      = b.items ++ ((hs.enumFrom b.items.length).map
          (fun p => ⟨"item_" ++ natDecimal (p.1 + 1), p.2.1, p.2.2⟩)) := by
  induction hs generalizing b with
  | nil => simp [EPUBBuilder.add_items]
  | cons h hs ih =>
    show (EPUBBuilder.add_items (b.add_item h.1 h.2) hs).items = _
    rw [ih]
    simp [EPUBBuilder.add_item, List.enumFrom]

/-- C9.  Starting from a fresh builder, a sequence of `add_item` calls
yields a registry holding exactly one entry per call, in call order, with
hrefs and media types preserved and ids `item_1` through `item_N` assigned
sequentially; consequently the ids are pairwise distinct. -/
theorem add_item_registry (t a u : String) (hs : List (String × String)) :
    (EPUBBuilder.add_items ⟨t, a, u, []⟩ hs).items
      = hs.enum.map (fun p => ⟨"item_" ++ natDecimal (p.1 + 1), p.2.1, p.2.2⟩) ∧
    (EPUBBuilder.add_items ⟨t, a, u, []⟩ hs).items.length = hs.length ∧
    ((EPUBBuilder.add_items ⟨t, a, u, []⟩ hs).items.map ContentItem.id).Nodup := by
  have hitems : (EPUBBuilder.add_items ⟨t, a, u, []⟩ hs).items
      = hs.enum.map (fun p => ⟨"item_" ++ natDecimal (p.1 + 1), p.2.1, p.2.2⟩) := by
    rw [add_items_items]
    rfl
  refine ⟨hitems, by rw [hitems]; simp, ?_⟩
  rw [hitems, List.map_map]
  have hcomp : (ContentItem.id ∘ fun p : Nat × (String × String) =>
        (⟨"item_" ++ natDecimal (p.1 + 1), p.2.1, p.2.2⟩ : ContentItem))
      = (fun k => "item_" ++ natDecimal (k + 1)) ∘ Prod.fst := rfl
  rw [hcomp, ← List.map_map, List.enum_map_fst]
  refine List.Nodup.map ?_ (List.nodup_range hs.length)
  intro x y hxy
  have h1 := item_id_injective (x + 1) (y + 1) hxy
  omega

/-! ### Claim C7: descriptor regeneration is idempotent up to the timestamp -/

/-- C7.  Two generations of the descriptor from an unchanged registry agree
everywhere outside the timestamp slot: a common prefix and suffix
(depending only on uuid, title, author and the registry) surround the
interpolated timestamp, and the common suffix contains the manifest and
spine sections, which are therefore identical across the two documents. -/
theorem generate_content_opf_idempotent (u t a : String) (items : List ContentItem)
    (now1 now2 : String) :
    ∃ pre post,
      content_opf_text u t a items now1 = pre ++ now1 ++ post ∧
      content_opf_text u t a items now2 = pre ++ now2 ++ post ∧
      ∃ mid1 mid2 mid3,
        post = mid1 ++ _generate_manifest_items items
          ++ mid2 ++ _generate_spine_items items ++ mid3 := by
  refine ⟨"<?xml version=\"1.0\" encoding=\"UTF-8\"?>\n<package version=\"3.0\" xmlns=\"http://www.idpf.org/2007/opf\" unique-identifier=\"BookId\">\n    <metadata xmlns:dc=\"http://purl.org/dc/elements/1.1/\" xmlns:opf=\"http://www.idpf.org/2007/opf\">\n        <dc:identifier id=\"BookId\">"
      ++ u ++ "</dc:identifier>\n        <dc:title>"
      ++ t ++ "</dc:title>\n        <dc:creator>"
      ++ a ++ "</dc:creator>\n        <dc:language>zh-CN</dc:language>\n        <meta property=\"dcterms:modified\">",
    "</meta>\n    </metadata>\n    \n    <manifest>\n        "
      ++ _generate_manifest_items items ++ "\n    </manifest>\n    \n    <spine>\n        "
      ++ _generate_spine_items items ++ "\n    </spine>\n</package>",
    ?_, ?_,
    "</meta>\n    </metadata>\n    \n    <manifest>\n        ",
    "\n    </manifest>\n    \n    <spine>\n        ", "\n    </spine>\n</package>",
    by simp [String.append_assoc]⟩
  · simp [content_opf_text, String.append_assoc]
  · simp [content_opf_text, String.append_assoc]

/-! ### Claim C8: XML escaping of interpolated metadata -/

set_option maxRecDepth 8000 in
/-- C8 (divergence witness).  The descriptor generator interpolates title,
author and href values verbatim: at a title containing `&`, an author
containing `<` and `>`, and an href containing `&`, `<` and `>`, the
rendered document contains those reserved characters raw and unescaped. -/
theorem content_opf_no_escaping :
    content_opf_text "uid-1" "A&B" "O<C>"
        [⟨"item_1", "a&b<c>.xhtml", "application/xhtml+xml"⟩] "2026-01-01T00:00:00Z"
      = "<?xml version=\"1.0\" encoding=\"UTF-8\"?>\n<package version=\"3.0\" xmlns=\"http://www.idpf.org/2007/opf\" unique-identifier=\"BookId\">\n    <metadata xmlns:dc=\"http://purl.org/dc/elements/1.1/\" xmlns:opf=\"http://www.idpf.org/2007/opf\">\n        <dc:identifier id=\"BookId\">uid-1</dc:identifier>\n        <dc:title>A&B</dc:title>\n        <dc:creator>O<C></dc:creator>\n        <dc:language>zh-CN</dc:language>\n        <meta property=\"dcterms:modified\">2026-01-01T00:00:00Z</meta>\n    </metadata>\n    \n    <manifest>\n        <item id=\"item_1\" href=\"a&b<c>.xhtml\" media-type=\"application/xhtml+xml\"/>\n    </manifest>\n    \n    <spine>\n        <itemref idref=\"item_1\"/>\n    </spine>\n</package>" := by
  decide

/-! ### Claim C5: validator check cascade -/

theorem req_find_none (z : ZipArchive)
    (hall : ∀ f ∈ required_files, (z.getinfo f).isSome = true) :
    required_files.find? (fun f => (z.getinfo f).isNone) = none := by
  rw [List.find?_eq_none]
  intro f hf
  simp [Option.isNone_iff_eq_none]
  intro hn
  have := hall f hf
  rw [hn] at this
  simp at this

theorem items_find_none (items : List ContentItem) (z : ZipArchive)
    (hall : ∀ item ∈ items, (z.getinfo (sjoin "OEBPS" item.href)).isSome = true) :
    items.find? (fun item => (z.getinfo (sjoin "OEBPS" item.href)).isNone) = none := by
  rw [List.find?_eq_none]
  intro item hm
  simp [Option.isNone_iff_eq_none]
  intro hn
  have := hall item hm
  rw [hn] at this
  simp at this

theorem validate_archive_true_iff (items : List ContentItem) (z : ZipArchive) :
    validate_archive items z = (true, "验证通过") ↔
      (z.corrupt = none ∧
       (∀ f ∈ required_files, (z.getinfo f).isSome = true) ∧
       z.read "mimetype" = some "application/epub+zip" ∧
       (∃ e0, z.filelist.head? = some e0 ∧ e0.filename = "mimetype" ∧
          e0.compress_type = ZIP_STORED) ∧
       (∀ item ∈ items, (z.getinfo (sjoin "OEBPS" item.href)).isSome = true)) := by
  unfold validate_archive
  cases hc : z.corrupt with
  | some bad => simp
  | none =>
    simp only []
    cases hreq : required_files.find? (fun f => (z.getinfo f).isNone) with
    | some f =>
      have hf := List.find?_some hreq
      have hmem := List.mem_of_find?_eq_some hreq
      constructor
      · intro h
        simp at h
      · rintro ⟨-, hall, -⟩
        have := hall f hmem
        rw [Option.isNone_iff_eq_none] at hf
        rw [hf] at this
        simp at this
    | none =>
      have hall : ∀ f ∈ required_files, (z.getinfo f).isSome = true := by
        rw [List.find?_eq_none] at hreq
        intro f hf
        have := hreq f hf
        simpa [Option.isNone_iff_eq_none, Option.isSome_iff_ne_none] using this
      cases hread : z.read "mimetype" with
      | none => simp [hread]
      | some c =>
        by_cases hcv : c = "application/epub+zip"
        · subst hcv
          simp only [beq_self_eq_true, Bool.not_true, Bool.false_eq_true, if_false]
          cases hh : z.filelist.head? with
          | none => simp [hall, hread]
          | some e0 =>
            by_cases hfn : e0.filename = "mimetype"
            · by_cases hct : e0.compress_type = ZIP_STORED
              · simp only [hfn, hct, beq_self_eq_true, Bool.not_true, Bool.or_self,
                  Bool.false_eq_true, if_false]
                cases hit : items.find?
                    (fun item => (z.getinfo (sjoin "OEBPS" item.href)).isNone) with
                | some item =>
                  have hf2 := List.find?_some hit
                  have hmem2 := List.mem_of_find?_eq_some hit
                  constructor
                  · intro h
                    simp at h
                  · rintro ⟨-, -, -, -, hall2⟩
                    have := hall2 item hmem2
                    rw [Option.isNone_iff_eq_none] at hf2
                    rw [hf2] at this
                    simp at this
                | none =>
                  have hall2 : ∀ item ∈ items,
                      (z.getinfo (sjoin "OEBPS" item.href)).isSome = true := by
                    rw [List.find?_eq_none] at hit
                    intro item hm
                    have := hit item hm
                    simpa [Option.isNone_iff_eq_none, Option.isSome_iff_ne_none] using this
                  simp only [hread, hfn, hct]
                  simp
                  exact ⟨hall, ⟨hfn, hct⟩, hall2⟩
              · constructor
                · intro h
                  simp [hfn, hct] at h
                · rintro ⟨-, -, -, ⟨e1, he1, -, hc1⟩, -⟩
                  cases he1
                  exact absurd hc1 hct
            · constructor
              · intro h
                simp [hfn] at h
              · rintro ⟨-, -, -, ⟨e1, he1, hf1, -⟩, -⟩
                cases he1
                exact absurd hf1 hfn
        · constructor
          · intro h
            simp [hcv] at h
          · rintro ⟨-, -, hr, -⟩
            cases hr
            exact absurd rfl hcv

theorem validate_archive_shape (items : List ContentItem) (z : ZipArchive) :
    validate_archive items z = (true, "验证通过") ∨ (validate_archive items z).1 = false := by
  unfold validate_archive
  cases z.corrupt with
  | some bad => simp
  | none =>
    cases required_files.find? (fun f => (z.getinfo f).isNone) with
    | some f => simp
    | none =>
      cases z.read "mimetype" with
      | none => simp
      | some c =>
        by_cases hcv : (!(c == "application/epub+zip")) = true
        · simp [hcv]
        · simp only [hcv, if_false, Bool.false_eq_true]
          cases z.filelist.head? with
          | none => simp
          | some e0 =>
            by_cases hb : (!(e0.filename == "mimetype") || !(e0.compress_type == ZIP_STORED)) = true
            · simp [hb]
            · simp only [hb, if_false, Bool.false_eq_true]
              cases items.find? (fun item => (z.getinfo (sjoin "OEBPS" item.href)).isNone) with
              | some item => simp
              | none => simp

theorem validate_archive_of_fst_true (items : List ContentItem) (z : ZipArchive)
    (h : (validate_archive items z).1 = true) :
    validate_archive items z = (true, "验证通过") := by
  rcases validate_archive_shape items z with h1 | h1
  · exact h1
  · rw [h1] at h
    simp at h

/-- C5.  The validator checks, in order: archive integrity; presence of the
three fixed entries; marker content; marker first and uncompressed; every
registered href present.  It returns `(false, message)` at the first
failing mandatory check, returns `(true, "验证通过")` exactly when all
mandatory checks pass, and the advisory checksum step never causes a
failure (the all-pass case returns success unconditionally). -/
theorem validate_epub_check_order (items : List ContentItem) (z : ZipArchive) :
    (validate_archive items z = (true, "验证通过") ↔
      (z.corrupt = none ∧
       (∀ f ∈ required_files, (z.getinfo f).isSome = true) ∧
       z.read "mimetype" = some "application/epub+zip" ∧
       (∃ e0, z.filelist.head? = some e0 ∧ e0.filename = "mimetype" ∧
          e0.compress_type = ZIP_STORED) ∧
       (∀ item ∈ items, (z.getinfo (sjoin "OEBPS" item.href)).isSome = true))) ∧
    (∀ bad, z.corrupt = some bad →
       validate_archive items z = (false, "ZIP文件损坏，首个错误文件: " ++ bad)) ∧
    (∀ f, z.corrupt = none →
       required_files.find? (fun g => (z.getinfo g).isNone) = some f →
       validate_archive items z = (false, "缺少必需文件: " ++ f)) ∧
    (∀ c, z.corrupt = none →
       (∀ f ∈ required_files, (z.getinfo f).isSome = true) →
       z.read "mimetype" = some c → c ≠ "application/epub+zip" →
       validate_archive items z = (false, "mimetype文件内容不正确")) ∧
    (∀ e0, z.corrupt = none →
       (∀ f ∈ required_files, (z.getinfo f).isSome = true) →
       z.read "mimetype" = some "application/epub+zip" →
       z.filelist.head? = some e0 →
       (e0.filename ≠ "mimetype" ∨ e0.compress_type ≠ ZIP_STORED) →
       validate_archive items z = (false, "mimetype必须是第一个且未压缩的文件")) ∧
    (∀ item, z.corrupt = none →
       (∀ f ∈ required_files, (z.getinfo f).isSome = true) →
       z.read "mimetype" = some "application/epub+zip" →
       (∃ e0, z.filelist.head? = some e0 ∧ e0.filename = "mimetype" ∧
          e0.compress_type = ZIP_STORED) →
       items.find? (fun it => (z.getinfo (sjoin "OEBPS" it.href)).isNone) = some item →
       validate_archive items z = (false, "content.opf中列出的文件不存在: " ++ sjoin "OEBPS" item.href)) ∧
    ((validate_archive items z).1 = true → (validate_archive items z).2 = "验证通过") := by
  refine ⟨validate_archive_true_iff items z, ?_, ?_, ?_, ?_, ?_,
    fun h => by rw [validate_archive_of_fst_true items z h]⟩
  · intro bad hbad
    unfold validate_archive
    rw [hbad]
  · intro f hc hf
    unfold validate_archive
    rw [hc, hf]
  · intro c hc hall hread hcv
    unfold validate_archive
    rw [hc, req_find_none z hall, hread]
    simp [hcv]
  · intro e0 hc hall hread hh hbad
    unfold validate_archive
    rw [hc, req_find_none z hall, hread, hh]
    have : (!(e0.filename == "mimetype") || !(e0.compress_type == ZIP_STORED)) = true := by
      rcases hbad with h1 | h1 <;> simp [h1]
    simp [this]
  · rintro item hc hall hread ⟨e0, hh, hfn, hct⟩ hit
    unfold validate_archive
    rw [hc, req_find_none z hall, hread, hh, hit]
    simp [hfn, hct]

/-! ### Claim C10: validate_epub is total and maps open failures to errors -/

/-- C10.  For every disk and path, `validate_epub` returns a `(Bool, String)`
pair: a path holding a non-archive file yields `(false, "无效的ZIP文件")`
(the `BadZipFile` handler), a missing path yields a `(false, ...)` message
from the blanket exception handler, and an archive is processed by the
total check cascade; no exception escapes. -/
theorem validate_epub_total (items : List ContentItem) (d : Disk) (p : String) :
    (∃ ok msg, validate_epub items d p = (ok, msg)) ∧
    (lookupArchive d.archives p = none → (lookupFile d.files p).isSome = true →
       validate_epub items d p = (false, "无效的ZIP文件")) ∧
    (lookupArchive d.archives p = none → lookupFile d.files p = none →
       validate_epub items d p
         = (false, "验证过程出错: [Errno 2] No such file or directory: '" ++ p ++ "'")) ∧
    (∀ z, lookupArchive d.archives p = some z →
       validate_epub items d p = validate_archive items z) := by
  refine ⟨⟨_, _, rfl⟩, ?_, ?_, ?_⟩
  · intro hna hf
    unfold validate_epub openZip
    rw [hna]
    simp [hf]
  · intro hna hf
    unfold validate_epub openZip
    rw [hna, hf]
    simp
  · intro z hz
    unfold validate_epub openZip
    rw [hz]

/-! ### create_epub elimination helpers -/

theorem create_epub_ok_spec (b : EPUBBuilder) (d : Disk) (temp_dir output_dir : String)
    (epub_name? : Option String) (p : String) (d' : Disk)
    (h : create_epub b d temp_dir output_dir epub_name? = (.ok p, d')) :
    b.items.find?
        (fun item => !(fileExists d (sjoin (sjoin temp_dir "OEBPS") item.href))) = none ∧
    ∃ mc, lookupFile d.files (sjoin temp_dir "mimetype") = some mc ∧
      p = sjoin output_dir (epubName b epub_name?) ∧
      d' = writeArchive d p (builtArchive mc d.files temp_dir (epubName b epub_name?)) ∧
      validate_archive b.items (builtArchive mc d.files temp_dir (epubName b epub_name?))
        = (true, "验证通过") := by
  unfold create_epub at h
  cases hpre : b.items.find?
      (fun item => !(fileExists d (sjoin (sjoin temp_dir "OEBPS") item.href))) with
  | some item =>
    rw [hpre] at h
    simp at h
  | none =>
    rw [hpre] at h
    simp only [] at h
    cases hmc : lookupFile d.files (sjoin temp_dir "mimetype") with
    | none =>
      rw [hmc] at h
      simp at h
    | some mc =>
      rw [hmc] at h
      simp only [] at h
      rw [validate_epub_writeArchive] at h
      cases hv : (validate_archive b.items
          (builtArchive mc d.files temp_dir (epubName b epub_name?))).1 with
      | false =>
        rw [hv] at h
        simp at h
      | true =>
        rw [hv] at h
        simp only [if_true] at h
        have hp : p = sjoin output_dir (epubName b epub_name?) := by
          have := congrArg Prod.fst h
          simp at this
          exact this.symm
        have hd : d' = writeArchive d (sjoin output_dir (epubName b epub_name?))
            (builtArchive mc d.files temp_dir (epubName b epub_name?)) := by
          have := congrArg Prod.snd h
          simp at this
          exact this.symm
        exact ⟨rfl, mc, rfl, hp, by rw [hp]; exact hd,
          validate_archive_of_fst_true _ _ hv⟩

/-! ### Claim C2: missing backing file fails fast, before the archive -/

/-- C2.  When some registered item's backing file is absent under the
content root, `create_epub` raises `找不到必需的文件: <href>` naming the
offending href (the first such item, per the source's loop), and the disk
is left exactly as it was: no archive file is created. -/
theorem create_epub_missing_file (b : EPUBBuilder) (d : Disk)
    (temp_dir output_dir : String) (epub_name? : Option String)
    (h : ∃ item ∈ b.items, fileExists d (sjoin (sjoin temp_dir "OEBPS") item.href) = false) :
    ∃ item ∈ b.items,
      fileExists d (sjoin (sjoin temp_dir "OEBPS") item.href) = false ∧
      create_epub b d temp_dir output_dir epub_name?
        = (.err ("找不到必需的文件: " ++ item.href), d) := by
  have hsome : (b.items.find?
      (fun item => !(fileExists d (sjoin (sjoin temp_dir "OEBPS") item.href)))).isSome := by
    rw [List.find?_isSome]
    obtain ⟨item, hm, hfe⟩ := h
    exact ⟨item, hm, by simp [hfe]⟩
  obtain ⟨item0, hfind⟩ := Option.isSome_iff_exists.mp hsome
  have hmem := List.mem_of_find?_eq_some hfind
  have hval := List.find?_some hfind
  refine ⟨item0, hmem, by simpa using hval, ?_⟩
  unfold create_epub
  rw [hfind]

/-- Witness for C2: a registry with one item whose backing file is absent
on an otherwise empty disk. -/
theorem create_epub_missing_file_witness :
    (∃ item ∈ (⟨"T", "A", "u", [⟨"item_1", "ch1.xhtml", "application/xhtml+xml"⟩]⟩ :
        EPUBBuilder).items,
      fileExists ⟨[], []⟩ (sjoin (sjoin "tmp" "OEBPS") item.href) = false) ∧
    ∃ item ∈ (⟨"T", "A", "u", [⟨"item_1", "ch1.xhtml", "application/xhtml+xml"⟩]⟩ :
        EPUBBuilder).items,
      fileExists ⟨[], []⟩ (sjoin (sjoin "tmp" "OEBPS") item.href) = false ∧
      create_epub ⟨"T", "A", "u", [⟨"item_1", "ch1.xhtml", "application/xhtml+xml"⟩]⟩
          ⟨[], []⟩ "tmp" "out" none
        = (.err ("找不到必需的文件: " ++ item.href), ⟨[], []⟩) :=
  ⟨by decide,
   create_epub_missing_file ⟨"T", "A", "u", [⟨"item_1", "ch1.xhtml", "application/xhtml+xml"⟩]⟩
     ⟨[], []⟩ "tmp" "out" none (by decide)⟩

/-! ### Claim C1: marker entry first, stored, exact content -/

theorem find?_filter_of_imp {α} (p q : α → Bool) (l : List α)
    (h : ∀ x, p x = true → q x = true) : (l.filter q).find? p = l.find? p := by
  induction l with
  | nil => rfl
  | cons a t ih =>
    by_cases hq : q a = true
    · rw [List.filter_cons_of_pos hq]
      simp only [List.find?]
      cases hp : p a <;> simp [hp, ih]
    · rw [List.filter_cons_of_neg (by simpa using hq)]
      simp only [List.find?]
      cases hp : p a with
      | false => exact ih
      | true => exact absurd (h a hp) hq

theorem lookupFile_writeFile_self (d : Disk) (p c : String) :
    lookupFile (writeFile d p c).files p = some c := by
  unfold lookupFile writeFile
  simp only []
  rw [find?_append_of_none _ _ _ (find?_filter_key_none d.files p)]
  simp [List.find?]

theorem lookupFile_writeFile_other (d : Disk) (p c q : String) (h : ¬ q = p) :
    lookupFile (writeFile d p c).files q = lookupFile d.files q := by
  unfold lookupFile writeFile
  simp only []
  rw [List.find?_append]
  have hq : ((fun e => e.1 == q) (p, c)) = false := by
    simp
    exact fun hc => h hc.symm
  have hsingle : (List.find? (fun e => e.1 == q) [(p, c)]) = none := by
    simp [List.find?, hq]
  rw [hsingle, Option.or_none]
  rw [find?_filter_of_imp]
  intro x hx
  simp only [beq_iff_eq] at hx
  simp [hx, h]

/-- The scaffold builder writes the marker file with the exact marker
bytes: the hypothesis of `create_epub_mimetype_first` is established by
`create_epub_structure`. -/
theorem create_epub_structure_mimetype (d : Disk) (output_dir : String) :
    lookupFile (create_epub_structure d output_dir).files (sjoin output_dir "mimetype")
      = some "application/epub+zip" := by
  unfold create_epub_structure _create_container_xml _create_mimetype
  rw [lookupFile_writeFile_other]
  · exact lookupFile_writeFile_self d (sjoin output_dir "mimetype") "application/epub+zip"
  · intro hne
    have hd := congrArg String.data hne
    simp only [sjoin, String.data_append] at hd
    have hlen := congrArg List.length hd
    simp at hlen

/-- C1.  In any build whose scaffold marker file holds the exact marker
bytes (as `create_epub_structure` writes them), a successful `create_epub`
leaves at the returned path an archive whose first entry is named
`mimetype`, stored uncompressed (`ZIP_STORED`), with content exactly
`application/epub+zip` — no trailing newline, no byte-order mark. -/
theorem create_epub_mimetype_first (b : EPUBBuilder) (d : Disk)
    (temp_dir output_dir : String) (epub_name? : Option String) (p : String) (d' : Disk)
    (hmime : lookupFile d.files (sjoin temp_dir "mimetype") = some "application/epub+zip")
    (hne : b.items ≠ [])
    (h : create_epub b d temp_dir output_dir epub_name? = (.ok p, d')) :
    ∃ z : ZipArchive, lookupArchive d'.archives p = some z ∧
      z.filelist.head? = some ⟨"mimetype", "application/epub+zip", ZIP_STORED⟩ := by
  obtain ⟨-, mc, hmc, hp, hd, -⟩ := create_epub_ok_spec b d temp_dir output_dir epub_name? p d' h
  rw [hmime] at hmc
  cases hmc
  refine ⟨builtArchive "application/epub+zip" d.files temp_dir (epubName b epub_name?), ?_, rfl⟩
  rw [hd]
  exact lookupArchive_writeArchive d p _



/-- Witness for C1: a concrete successful build. -/
theorem create_epub_mimetype_first_witness :
    (lookupFile demo_disk.files (sjoin "tmp" "mimetype") = some "application/epub+zip") ∧
    demo_builder.items ≠ [] ∧
    create_epub demo_builder demo_disk "tmp" "out" none
      = (.ok "out/T.epub", (create_epub demo_builder demo_disk "tmp" "out" none).2) ∧
    ∃ z, lookupArchive ((create_epub demo_builder demo_disk "tmp" "out" none).2).archives
        "out/T.epub" = some z ∧
      z.filelist.head? = some ⟨"mimetype", "application/epub+zip", ZIP_STORED⟩ :=
  ⟨by decide, by decide, by decide,
   create_epub_mimetype_first demo_builder demo_disk "tmp" "out" none "out/T.epub"
     (create_epub demo_builder demo_disk "tmp" "out" none).2
     (by decide) (by decide) (by decide)⟩

/-! ### Claim C3: post-build validation failure deletes the archive -/

theorem lookupArchive_removePath_self (d : Disk) (p : String) :
    lookupArchive (removePath d p).archives p = none := by
  unfold lookupArchive removePath
  simp only []
  rw [find?_filter_key_none]
  rfl

/-- C3.  Once the pre-check passes and the marker file exists, the archive
is fully written; if the validator then rejects it, `create_epub` deletes
the just-created archive file and raises `EPUB文件验证失败` carrying the
validator's message, and the text files on disk (in particular the whole
scaffold) are left unchanged in both the failure and the success case
(given that no text file sat at the output path). -/
theorem create_epub_validation_failure (b : EPUBBuilder) (d : Disk)
    (temp_dir output_dir : String) (epub_name? : Option String)
    (mc ep : String) (z : ZipArchive) (d1 : Disk)
    (hpre : b.items.find?
        (fun item => !(fileExists d (sjoin (sjoin temp_dir "OEBPS") item.href))) = none)
    (hmime : lookupFile d.files (sjoin temp_dir "mimetype") = some mc)
    (hep : ep = sjoin output_dir (epubName b epub_name?))
    (hz : z = builtArchive mc d.files temp_dir (epubName b epub_name?))
    (hd1 : d1 = writeArchive d ep z)
    (hnf : lookupFile d.files ep = none) :
    ((create_epub b d temp_dir output_dir epub_name?).2.files = d.files) ∧
    ((validate_archive b.items z).1 = false →
       create_epub b d temp_dir output_dir epub_name?
         = (.err ("EPUB文件验证失败: " ++ (validate_archive b.items z).2), removePath d1 ep) ∧
       lookupArchive (removePath d1 ep).archives ep = none ∧
       (removePath d1 ep).files = d.files) ∧
    ((validate_archive b.items z).1 = true →
       create_epub b d temp_dir output_dir epub_name? = (.ok ep, d1) ∧ d1.files = d.files) := by
  subst hep hz hd1
  have hnf' := (lookupFile_eq_none_iff d.files _).mp hnf
  have hwfiles : (writeArchive d (sjoin output_dir (epubName b epub_name?))
      (builtArchive mc d.files temp_dir (epubName b epub_name?))).files = d.files :=
    writeArchive_files_of_no_file d _ _ hnf'
  have hrfiles : (removePath (writeArchive d (sjoin output_dir (epubName b epub_name?))
        (builtArchive mc d.files temp_dir (epubName b epub_name?)))
          (sjoin output_dir (epubName b epub_name?))).files = d.files := by
    unfold removePath
    simp only []
    rw [hwfiles]
    exact filter_key_eq_self d.files _ hnf'
  unfold create_epub
  rw [hpre, hmime]
  simp only []
  rw [validate_epub_writeArchive]
  cases hv : (validate_archive b.items
      (builtArchive mc d.files temp_dir (epubName b epub_name?))).1 with
  | true =>
    simp only [hv, if_true]
    refine ⟨hwfiles, ?_, ?_⟩
    · intro hfalse
      simp at hfalse
    · intro htrue
      exact ⟨by simp, hwfiles⟩
  | false =>
    simp only [hv, Bool.false_eq_true, if_false]
    refine ⟨hrfiles, ?_, ?_⟩
    · intro hfalse
      exact ⟨by simp, lookupArchive_removePath_self _ _, hrfiles⟩
    · intro htrue
      simp at htrue



/-- Witness for C3: a concrete build whose validation fails. -/
theorem create_epub_validation_failure_witness :
    (demo_builder.items.find? (fun item =>
        !(fileExists demo_disk_nocontainer (sjoin (sjoin "tmp" "OEBPS") item.href))) = none) ∧
    (lookupFile demo_disk_nocontainer.files (sjoin "tmp" "mimetype")
        = some "application/epub+zip") ∧
    (lookupFile demo_disk_nocontainer.files "out/T.epub" = none) ∧
    (validate_archive demo_builder.items demo_zip_fail).1 = false ∧
    (((create_epub demo_builder demo_disk_nocontainer "tmp" "out" none).2.files
        = demo_disk_nocontainer.files) ∧
     ((validate_archive demo_builder.items demo_zip_fail).1 = false →
        create_epub demo_builder demo_disk_nocontainer "tmp" "out" none
          = (.err ("EPUB文件验证失败: " ++ (validate_archive demo_builder.items demo_zip_fail).2),
             removePath (writeArchive demo_disk_nocontainer "out/T.epub" demo_zip_fail)
               "out/T.epub") ∧
        lookupArchive (removePath (writeArchive demo_disk_nocontainer "out/T.epub" demo_zip_fail)
            "out/T.epub").archives "out/T.epub" = none ∧
        (removePath (writeArchive demo_disk_nocontainer "out/T.epub" demo_zip_fail)
            "out/T.epub").files = demo_disk_nocontainer.files) ∧
     ((validate_archive demo_builder.items demo_zip_fail).1 = true →
        create_epub demo_builder demo_disk_nocontainer "tmp" "out" none
          = (.ok "out/T.epub", writeArchive demo_disk_nocontainer "out/T.epub" demo_zip_fail) ∧
        (writeArchive demo_disk_nocontainer "out/T.epub" demo_zip_fail).files
          = demo_disk_nocontainer.files)) :=
  ⟨by decide, by decide, by decide, by decide,
   create_epub_validation_failure demo_builder demo_disk_nocontainer "tmp" "out" none
     "application/epub+zip" "out/T.epub" demo_zip_fail
     (writeArchive demo_disk_nocontainer "out/T.epub" demo_zip_fail)
     (by decide) (by decide) (by decide) (by decide) (by decide) (by decide)⟩

/-! ### Claim C4: every registered href has exactly one archive entry -/

theorem foldl_basename_no_slash (t : List Char) (acc : List Char) (h : '/' ∉ t) :
    t.foldl (fun acc c => if c = '/' then [] else acc ++ [c]) acc = acc ++ t := by
  induction t generalizing acc with
  | nil => simp
  | cons c cs ih =>
    simp only [List.mem_cons, not_or] at h
    rw [List.foldl_cons, if_neg (fun hc => h.1 hc.symm)]
    rw [ih (acc ++ [c]) h.2]
    simp

theorem basenameChars_append (l t : List Char) (h : '/' ∉ t) :
    basenameChars (l ++ '/' :: t) = t := by
  unfold basenameChars
  rw [List.foldl_append, List.foldl_cons, if_pos rfl]
  exact foldl_basename_no_slash t [] h

theorem string_data_ext (a b : String) (h : a.data = b.data) : a = b := by
  cases a with
  | mk da =>
    cases b with
    | mk db =>
      simp only [] at h
      rw [h]

theorem drop_sep (pre t : List Char) : (pre ++ '/' :: t).drop (pre.length + 1) = t := by
  have h1 : pre ++ '/' :: t = (pre ++ ['/']) ++ t := by simp
  have h2 : pre.length + 1 = (pre ++ ['/']).length := by simp
  rw [h1, h2]
  exact List.drop_left _ _

/-- Decomposition of a kept walk file's path: it is the scaffold root, a
separator, and the relative path the entry is named after. -/
theorem walkKeep_decomp (temp_dir epub_name : String) (pc : String × String)
    (h : walkKeep temp_dir epub_name pc = true) :
    ∃ t, pc.1.data = temp_dir.data ++ '/' :: t ∧
      (walkEntry temp_dir pc).filename = ⟨t⟩ := by
  unfold walkKeep at h
  simp only [Bool.and_eq_true] at h
  obtain ⟨⟨hpfx, -⟩, -⟩ := h
  rw [ List.isPrefixOf_iff_prefix] at hpfx
  obtain ⟨t, ht⟩ := hpfx
  rw [String.data_append] at ht
  have hsl : ("/" : String).data = ['/'] := rfl
  rw [hsl] at ht
  have hdata : pc.1.data = temp_dir.data ++ '/' :: t := by
    rw [← ht]
    simp
  refine ⟨t, hdata, ?_⟩
  unfold walkEntry
  simp only []
  congr 1
  rw [hdata]
  exact drop_sep temp_dir.data t

theorem walkEntry_filename_ne_mimetype (temp_dir epub_name : String) (pc : String × String)
    (h : walkKeep temp_dir epub_name pc = true) :
    (walkEntry temp_dir pc).filename ≠ "mimetype" := by
  obtain ⟨t, hdata, hname⟩ := walkKeep_decomp temp_dir epub_name pc h
  intro hc
  rw [hname] at hc
  have ht : t = "mimetype".data := congrArg String.data hc
  subst ht
  have hbase : basename pc.1 = "mimetype" := by
    unfold basename
    rw [hdata, basenameChars_append]
    decide
  unfold walkKeep at h
  simp only [Bool.and_eq_true] at h
  obtain ⟨⟨-, hm⟩, -⟩ := h
  rw [hbase] at hm
  simp at hm

theorem walkFiles_names_nodup (files : List (String × String)) (temp_dir epub_name : String)
    (hwf : (files.map Prod.fst).Nodup) :
    ((walkFiles files temp_dir epub_name).map ZipEntry.filename).Nodup := by
  unfold walkFiles
  rw [List.map_map]
  have hre : (ZipEntry.filename ∘ walkEntry temp_dir)
      = (fun s : String => (⟨s.data.drop (temp_dir.data.length + 1)⟩ : String)) ∘ Prod.fst := by
    funext pc
    rfl
  rw [hre, ← List.map_map]
  have hkeys : ((files.filter (walkKeep temp_dir epub_name)).map Prod.fst).Nodup :=
    hwf.sublist ((List.filter_sublist files).map Prod.fst)
  apply List.Nodup.map_on _ hkeys
  intro x hx y hy hxy
  rw [List.mem_map] at hx hy
  obtain ⟨pcx, hpcx, hxe⟩ := hx
  obtain ⟨pcy, hpcy, hye⟩ := hy
  rw [List.mem_filter] at hpcx hpcy
  obtain ⟨tx, htx, -⟩ := walkKeep_decomp temp_dir epub_name pcx hpcx.2
  obtain ⟨ty, hty, -⟩ := walkKeep_decomp temp_dir epub_name pcy hpcy.2
  subst hxe hye
  have hd := congrArg String.data hxy
  simp only [] at hd
  rw [htx, hty, drop_sep, drop_sep] at hd
  apply string_data_ext
  rw [htx, hty, hd]

theorem builtArchive_names_nodup (mc : String) (files : List (String × String))
    (temp_dir epub_name : String) (hwf : (files.map Prod.fst).Nodup) :
    ((builtArchive mc files temp_dir epub_name).filelist.map ZipEntry.filename).Nodup := by
  unfold builtArchive
  rw [List.map_cons, List.nodup_cons]
  refine ⟨?_, walkFiles_names_nodup files temp_dir epub_name hwf⟩
  rw [List.mem_map]
  rintro ⟨e, he, hename⟩
  unfold walkFiles at he
  rw [List.mem_map] at he
  obtain ⟨pc, hpc, hpce⟩ := he
  rw [List.mem_filter] at hpc
  exact walkEntry_filename_ne_mimetype temp_dir epub_name pc hpc.2 (by rw [hpce, hename])

/-- C4.  When `create_epub` succeeds on a well-formed disk, the archive at
the returned path contains, for every registered item, exactly one entry
named `OEBPS/<href>`. -/
theorem create_epub_href_entries (b : EPUBBuilder) (d : Disk)
    (temp_dir output_dir : String) (epub_name? : Option String) (p : String) (d' : Disk)
    (hwf : (d.files.map Prod.fst).Nodup)
    (h : create_epub b d temp_dir output_dir epub_name? = (.ok p, d')) :
    ∃ z, lookupArchive d'.archives p = some z ∧
      ∀ item ∈ b.items,
        (z.filelist.filter (fun e => e.filename == sjoin "OEBPS" item.href)).length = 1 := by
  obtain ⟨-, mc, hmc, hp, hd, hval⟩ :=
    create_epub_ok_spec b d temp_dir output_dir epub_name? p d' h
  refine ⟨builtArchive mc d.files temp_dir (epubName b epub_name?),
    by rw [hd]; exact lookupArchive_writeArchive d p _, ?_⟩
  intro item hmem
  have hfacts := (validate_archive_true_iff b.items _).mp hval
  have hsome := hfacts.2.2.2.2 item hmem
  unfold ZipArchive.getinfo at hsome
  have hne : (builtArchive mc d.files temp_dir (epubName b epub_name?)).filelist.filter
      (fun e => e.filename == sjoin "OEBPS" item.href) ≠ [] := by
    intro hnil
    rw [hnil] at hsome
    simp at hsome
  have hge : 1 ≤ ((builtArchive mc d.files temp_dir (epubName b epub_name?)).filelist.filter
      (fun e => e.filename == sjoin "OEBPS" item.href)).length := List.length_pos.mpr hne
  have hle := filter_length_le_one
    (builtArchive mc d.files temp_dir (epubName b epub_name?)).filelist ZipEntry.filename
    (sjoin "OEBPS" item.href)
    (builtArchive_names_nodup mc d.files temp_dir (epubName b epub_name?) hwf)
  omega

/-- Witness for C4: the concrete successful build of the C1 scenario. -/
theorem create_epub_href_entries_witness :
    ((demo_disk.files.map Prod.fst).Nodup) ∧
    create_epub demo_builder demo_disk "tmp" "out" none
      = (.ok "out/T.epub", (create_epub demo_builder demo_disk "tmp" "out" none).2) ∧
    ∃ z, lookupArchive ((create_epub demo_builder demo_disk "tmp" "out" none).2).archives
        "out/T.epub" = some z ∧
      ∀ item ∈ demo_builder.items,
        (z.filelist.filter (fun e => e.filename == sjoin "OEBPS" item.href)).length = 1 :=
  ⟨by decide, by decide,
   create_epub_href_entries demo_builder demo_disk "tmp" "out" none "out/T.epub"
     (create_epub demo_builder demo_disk "tmp" "out" none).2
     (by decide) (by decide)⟩


/-- Witness for C5: the all-pass case of the cascade at a concrete archive. -/
theorem validate_epub_check_order_witness :
    validate_archive [] demo_zip_ok = (true, "验证通过") :=
  ((validate_epub_check_order [] demo_zip_ok).1).mpr (by decide)

/-- Witness for C10: a path holding a plain text file trips the
`BadZipFile` handler. -/
theorem validate_epub_total_witness :
    validate_epub [] ⟨[("book.txt", "not a zip")], []⟩ "book.txt" = (false, "无效的ZIP文件") :=
  (validate_epub_total [] ⟨[("book.txt", "not a zip")], []⟩ "book.txt").2.1
    (by decide) (by decide)
